import Mathlib

/-!
Verification of the Cross-Label Lexical Overlap Engine
(`src/overlap_analysis.py`, class `OverlapAnalysis`).

The Python source is shallowly embedded below.  Pandas dataframes become
Lean lists, Python strings become Lean `String`s manipulated through their
underlying character lists (so that everything is executable and kernel
reducible), Python float arithmetic on the similarity statistic becomes
exact rational (`ℚ`) arithmetic, and the per-pair CSV cache plus the code
paths that raise Python exceptions become an explicit file-system state
and `Except` results.

Conventions used throughout:
* `pySplitChar sep s` models Python `s.split(sep)` for a one-character
  separator: empty fields are kept, and `"".split(' ') == ['']`.
* `pySplitWhite s` models the no-argument Python `s.split()`: splitting on
  separator runs, dropping empty fields.
* `keepFirsts` is first-occurrence deduplication (what `drop_duplicates`
  does row-wise, and the canonical listing we pick for Python's
  unordered `set` iteration).
* pandas `sort_values` is modelled by a stable insertion sort
  (`insertionSort`); no claim below depends on the order of rows beyond
  the multiset of rows, so the tie-breaking of the source's unstable
  quicksort is immaterial.
-/

namespace OverlapAnalysis

/-- Splitting a character list at every occurrence of a separator,
keeping empty fields — the semantics of Python `str.split(sep)` with an
explicit one-character separator (`[] ↦ [[]]`, i.e. `"".split(' ') == ['']`). -/
def splitCharsOn (sep : Char) : List Char → List (List Char)
  | [] => [[]]
  | c :: cs =>
    match splitCharsOn sep cs with
    | [] => [[]]
    | w :: ws => if c = sep then [] :: w :: ws else (c :: w) :: ws

/-- Python `s.split(' ')` on a Lean `String`: fields between single-space
separators, empty fields kept. -/
def pySplitChar (sep : Char) (s : String) : List String :=
  (splitCharsOn sep s.data).map (fun w => ⟨w⟩)

/-- Python `s.split()` (no argument) after all relevant separators have
been turned into spaces: split on spaces and drop the empty fields. -/
def pySplitWhite (s : String) : List String :=
  ((splitCharsOn ' ' s.data).map (fun w => ⟨w⟩)).filter (fun w => decide (w ≠ ""))

/-- First-occurrence deduplication: keeps the first copy of every element,
in order of first appearance.  This is the row-order semantics of pandas
`drop_duplicates`, and the canonical listing we use for Python's `set`. -/
def keepFirsts {α : Type} [DecidableEq α] : List α → List α
  | [] => []
  | w :: ws => w :: (keepFirsts ws).filter (fun v => decide (v ≠ w))

/-- Stable insertion of `r` into `l`: `r` is placed before the first
element `x` with `before r x = true`. -/
def insertSorted {α : Type} (before : α → α → Bool) (r : α) : List α → List α
  | [] => [r]
  | x :: xs => if before r x then r :: x :: xs else x :: insertSorted before r xs

/-- Stable insertion sort, used to model pandas `sort_values`. -/
def insertionSort {α : Type} (before : α → α → Bool) : List α → List α
  | [] => []
  | x :: xs => insertSorted before x (insertionSort before xs)

/-! ### 4.4 Overlap Scorer — `unigrams_in_common` (src lines 220–235)

```python
unigrams_1 = list(set(lid_1.split(' ')))
unigrams_2 = list(set(lid_2.split(' ')))
common_unigrams = list(set(unigrams_1).intersection(unigrams_2))
return len(common_unigrams) / ((len(unigrams_1) + len(unigrams_2)) / 2), ','.join(common_unigrams)
```

Python `set` iteration order is unspecified; we list every set in first
occurrence order (`keepFirsts`), which is one legitimate listing.  Float
division becomes exact division in `ℚ`. -/

/-- The deduplicated unigram list of one side, `list(set(lid.split(' ')))`. -/
def unigramList (lid : String) : List String :=
  keepFirsts (pySplitChar ' ' lid)

/-- The denominator `(len(unigrams_1) + len(unigrams_2)) / 2` of the
overlap statistic; Python raises `ZeroDivisionError` exactly when this
value is zero. -/
def uic_denominator (lid_1 lid_2 : String) : ℚ :=
  (((unigramList lid_1).length : ℚ) + ((unigramList lid_2).length : ℚ)) / 2

/-- `unigrams_in_common(lid_1, lid_2)`: the pair of the overlap statistic
and the comma-joined common unigrams. -/
def unigrams_in_common (lid_1 lid_2 : String) : ℚ × String :=
  let unigrams_1 := unigramList lid_1
  let unigrams_2 := unigramList lid_2
  let common_unigrams := unigrams_1.filter (fun u => decide (u ∈ unigrams_2))
  ((common_unigrams.length : ℚ) / uic_denominator lid_1 lid_2,
    String.intercalate "," common_unigrams)

/-! ### 4.1 Unigram Normalizer — `remove_special_chars` (src lines 313–327)
and `reduce_by_unigrams` (src lines 331–355) -/

/-- Python `lid_string.replace(special, ' ')` for a single character:
every occurrence of `special` becomes a single space. -/
def replaceWithSpace (lid_string : String) (special : Char) : String :=
  ⟨lid_string.data.map (fun d => if d = special then ' ' else d)⟩

/-- `remove_special_chars(lid_string, specials=',.-')`: the source loops
`for special in specials: lid_string = lid_string.replace(special, ' ')`. -/
def remove_special_chars (lid_string : String) (specials : String := ",.-") : String :=
  specials.data.foldl replaceWithSpace lid_string

/-- The accumulator loop of `reduce_by_unigrams`:
`for word in words: if word not in unigrams: unigrams.append(word)`. -/
def pyUniqLoop (unigrams : List String) : List String → List String
  | [] => unigrams
  | word :: words =>
    if word ∈ unigrams then pyUniqLoop unigrams words
    else pyUniqLoop (unigrams ++ [word]) words

/-- The token sequence materialized by `reduce_by_unigrams` on a string
input (the list `unigrams` of the source, before `' '.join`). -/
def reduceUnigramsList (lid_string : String) : List String :=
  pyUniqLoop [] (pySplitWhite (remove_special_chars lid_string))

/-- A dynamically-typed cell value handed to `reduce_by_unigrams`.  In the
pipeline the dataset column holds strings, and floats (pandas encodes a
null cell as the float `NaN`, and a sum of numeric description columns is
a float); any other value, e.g. a Python `int`, is also possible to pass. -/
inductive PyVal : Type
  | floatVal : PyVal
  | strVal : String → PyVal
  | intVal : Int → PyVal
deriving DecidableEq

/-- `reduce_by_unigrams(lid_string)`.  The source begins with
`if isinstance(lid_string, float): return ''`; a string input is
normalized and joined with single spaces.  Any other input reaches
`lid_string.replace(...)` and raises `AttributeError` — modelled as
`none`. -/
def reduce_by_unigrams (lid_string : PyVal) : Option String :=
  match lid_string with
  | .floatVal => some ""
  | .strVal s => some (String.intercalate " " (reduceUnigramsList s))
  | .intVal _ => none

/-! ### 4.2 Label Frequency Index — `get_unspsc_label_title`
(src lines 152–171) and `generate_label_frequency` (src lines 175–216)

A reference table (`title_dfs` sheet) is a list of `(Code, Title)` rows.
The source iterates over the sheets; inside one sheet,
`source_df[source_df.Code == unspsc_code].Title.values[0]` takes the
first matching row, and a later sheet with a match overwrites `title`. -/

/-- `get_unspsc_label_title(unspsc_code)`: fold over the reference tables,
replacing the running title by the first matching row's title whenever a
table contains the code; the initial value is `'Unknown'`. -/
def get_unspsc_label_title (title_dfs : List (List (Nat × String))) (unspsc_code : Nat) : String :=
  title_dfs.foldl
    (fun title source_df =>
      match source_df.filter (fun r => decide (r.1 = unspsc_code)) with
      | [] => title
      | r :: _ => r.2)
    "Unknown"

/-- Specification-side description of the same lookup: the first matching
row of each table, collected in table order; the title kept is the last
entry of that collection. -/
def lastTableMatch (title_dfs : List (List (Nat × String))) (unspsc_code : Nat) :
    Option (Nat × String) :=
  (title_dfs.filterMap
    (fun source_df => (source_df.filter (fun r => decide (r.1 = unspsc_code))).head?)).getLast?

/-- The list of positions at which the two-character substring `"00"`
begins in a string, counting overlapping occurrences — the match starts of
the regex `(?=(00))`. -/
def zzPositions (s : String) : List Nat :=
  (List.range s.data.length).filter
    (fun i => decide ((s.data.drop i).take 2 = ['0', '0']))

/-- The `level` arithmetic of `generate_label_frequency` (src lines 201–203):
```python
level = [m.start() for m in re.finditer(r'(?=(00))', str(code))]
level = 4 - len(level) + (level[0] % 2 == 1 if len(level) == 1 else len(level) // 2)
```
The boolean of the one-position branch counts as `1` or `0` in Python
arithmetic. -/
def derive_level (code : Nat) : Int :=
  match zzPositions (Nat.repr code) with
  | [p] => 4 - 1 + (if p % 2 = 1 then 1 else 0)
  | ps => 4 - (ps.length : Int) + ((ps.length / 2 : Nat) : Int)

/-- pandas `value_counts` over the label column: the distinct codes with
their multiplicities, ordered by descending count (stable for ties; the
source's tie order among equal counts is immaterial to every property
proved below). -/
def value_counts (labels : List Nat) : List (Nat × Nat) :=
  insertionSort (fun a b => decide (b.2 < a.2))
    ((keepFirsts labels).map (fun code => (code, labels.count code)))

/-- One row of `label_frequency_df`: columns `label, level, count, label_title`. -/
structure LabelRow : Type where
  label : Nat
  level : Int
  count : Nat
  label_title : String
deriving DecidableEq

/-- The generation branch of `generate_label_frequency` (the branch taken
when no persisted index file exists): one row per distinct label code of
the dataset's `v23_level3` column, followed by the filter
`label_frequency_df[label_frequency_df.label_title != 'Unknown']`. -/
def generate_label_frequency (title_dfs : List (List (Nat × String)))
    (dataset_labels : List Nat) : List LabelRow :=
  ((value_counts dataset_labels).map
      (fun cf => LabelRow.mk cf.1 (derive_level cf.1) cf.2
        (get_unspsc_label_title title_dfs cf.1))).filter
    (fun row => decide (row.label_title ≠ "Unknown"))

/-! ### 4.3 Pair Enumerator — `generate_interest_pairs` (src lines 260–309)

The generation branch crosses the label column with itself
(`pd.MultiIndex.from_product`), drops rows with `label_1 == label_2`, then
keeps rows with `label_1 < label_2`.  The title columns ride along
positionally and do not influence which code pairs survive, so the
embedding tracks the code pairs. -/

/-- The full Cartesian product of the label list with itself. -/
def crossSelf (labels : List Nat) : List (Nat × Nat) :=
  labels.flatMap (fun a => labels.map (fun b => (a, b)))

/-- The surviving `(label_1, label_2)` pairs of `generate_interest_pairs`. -/
def generate_interest_pairs (labels : List Nat) : List (Nat × Nat) :=
  ((crossSelf labels).filter (fun p => decide (p.1 ≠ p.2))).filter
    (fun p => decide (p.1 < p.2))

/-! ### 4.5 Cross-Product Aggregator — `compute_class_overlaps`
(src lines 391–436) and 4.6 Orchestrator — `overlap_analysis`
(src lines 384–448)

The per-pair cache directory is modelled as an association list from file
names to lists of persisted rows.  `compute_class_overlaps` returns the
scalar handed back to the orchestrator, the file system after the call,
and the number of `unigrams_in_common` invocations it performed.  The
Python exception paths (`ZeroDivisionError` from `sum(col)/len(col)` on an
empty column, and the `ValueError` of unpacking `zip(*...)` over an empty
cross product) are modelled as `Except.error`.  The creation of the cache
directory itself (`os.makedirs`) is not part of the file model. -/

/-- One row of a per-pair cache file: columns
`lid_1_reduced, lid_2_reduced, unigram_overlap_score, common_unigrams, count`. -/
structure CacheRow : Type where
  lid_1_reduced : String
  lid_2_reduced : String
  unigram_overlap_score : ℚ
  common_unigrams : String
  count : Nat
deriving DecidableEq

/-- The cache directory: file name ↦ persisted rows. -/
abbrev FS : Type := List (String × List CacheRow)

/-- `csv_name = 'overlap_' + str(label_1) + '_' + str(label_2) + '.csv'`. -/
def csvName (label_1 label_2 : Nat) : String :=
  "overlap_" ++ Nat.repr label_1 ++ "_" ++ Nat.repr label_2 ++ ".csv"

/-- The cross product of the two groups' `lid_reduced` values, in
`MultiIndex.from_product` order (first factor major). -/
def crossRows (lids_1 lids_2 : List String) : List (String × String) :=
  lids_1.flatMap (fun a => lids_2.map (fun b => (a, b)))

/-- The fully scored, pre-deduplication combination table: per combination
the two reduced LIDs, the overlap score scaled by `100`, the comma-joined
common unigrams, and the multiplicity of the combination in the full
cross product (the `groupby(...).transform('count')` column). -/
def scoredTable (lids_1 lids_2 : List String) : List CacheRow :=
  (crossRows lids_1 lids_2).map
    (fun r => CacheRow.mk r.1 r.2 ((unigrams_in_common r.1 r.2).1 * 100)
      (unigrams_in_common r.1 r.2).2 ((crossRows lids_1 lids_2).count r))

/-- The rows persisted to the pair's cache file:
`drop_duplicates().sort_values('unigram_overlap_score', ascending=False)`. -/
def cacheFileRows (lids_1 lids_2 : List String) : List CacheRow :=
  insertionSort (fun a b => decide (b.unigram_overlap_score < a.unigram_overlap_score))
    (keepFirsts (scoredTable lids_1 lids_2))

/-- `sum(xs) / len(xs)` over a column, in `ℚ`. -/
def listMean (xs : List ℚ) : ℚ := xs.sum / (xs.length : ℚ)

/-- Specification-side statistic: the mean `unigram_overlap_score` of the
full pre-deduplication combination table (duplicates contribute their full
multiplicity). -/
def fullCrossMean (lids_1 lids_2 : List String) : ℚ :=
  listMean ((scoredTable lids_1 lids_2).map (fun row => row.unigram_overlap_score))

/-- Specification-side statistic: the mean `unigram_overlap_score` over
the deduplicated rows persisted in the pair's cache file. -/
def dedupMean (lids_1 lids_2 : List String) : ℚ :=
  listMean ((cacheFileRows lids_1 lids_2).map (fun row => row.unigram_overlap_score))

/-- The selection `self.dataset_df[self.dataset_df.v23_level3 == label]`,
restricted to the `lid_reduced` column the aggregator consumes. -/
def selectLids (dataset : List (Nat × String)) (label : Nat) : List String :=
  (dataset.filter (fun r => decide (r.1 = label))).map (fun r => r.2)

/-- `compute_class_overlaps(label_1, label_2)` over an explicit cache
state `fs` and a dataset of `(v23_level3, lid_reduced)` rows.  Returns
`(returned mean, cache state after the call, number of Overlap Scorer
invocations)`, or the Python exception the call would raise
(`ZeroDivisionError` from `sum(col)/len(col)` over a zero-row cache file,
`ValueError` from unpacking the scored columns of an empty cross
product). -/
def compute_class_overlaps (fs : FS) (dataset : List (Nat × String))
    (label_1 label_2 : Nat) : Except String (ℚ × FS × Nat) :=
  let csv_name := csvName label_1 label_2
  match List.lookup csv_name fs with
  | some rows =>
    if rows.length = 0 then .error "ZeroDivisionError"
    else .ok (listMean (rows.map (fun row => row.unigram_overlap_score)), fs, 0)
  | none =>
    let df1 := selectLids dataset label_1
    let df2 := selectLids dataset label_2
    if (crossRows df1 df2).length = 0 then .error "ValueError"
    else
      .ok (listMean ((scoredTable df1 df2).map (fun row => row.unigram_overlap_score)),
        fs ++ [(csv_name, cacheFileRows df1 df2)],
        (crossRows df1 df2).length)

/-- The per-pair loop of `overlap_analysis`: `progress_apply` of
`compute_class_overlaps` over the rows of the pair table.  A Python
exception raised for one pair propagates out of `apply` immediately:
the remaining pairs are not processed and no result is produced. -/
def overlap_analysis : FS → List (Nat × String) → List (Nat × Nat) →
    Except String (List ℚ × FS)
  | fs, _, [] => .ok ([], fs)
  | fs, dataset, p :: ps =>
    match compute_class_overlaps fs dataset p.1 p.2 with
    | .error e => .error e
    | .ok (v, fs2, _) =>
      match overlap_analysis fs2 dataset ps with
      | .error e => .error e
      | .ok (vs, fs3) => .ok (v :: vs, fs3)

/-! ## Theorems -/

/-! ### Generic lemmas about the helper functions -/

theorem keepFirsts_nodup {α : Type} [DecidableEq α] (l : List α) :
    (keepFirsts l).Nodup := by
  induction l with
  | nil => simp [keepFirsts]
  | cons w ws ih =>
    refine List.nodup_cons.mpr ⟨?_, ih.filter _⟩
    intro hmem
    have := (List.mem_filter.mp hmem).2
    simp at this

theorem mem_keepFirsts {α : Type} [DecidableEq α] (a : α) (l : List α) :
    a ∈ keepFirsts l ↔ a ∈ l := by
  induction l with
  | nil => simp [keepFirsts]
  | cons w ws ih =>
    by_cases haw : a = w
    · subst haw; simp [keepFirsts]
    · simp only [keepFirsts, List.mem_cons, List.mem_filter, ih, decide_eq_true_eq]
      constructor
      · rintro (h | ⟨h, -⟩)
        · exact absurd h haw
        · exact Or.inr h
      · rintro (h | h)
        · exact absurd h haw
        · exact Or.inr ⟨h, haw⟩

theorem keepFirsts_toFinset {α : Type} [DecidableEq α] (l : List α) :
    (keepFirsts l).toFinset = l.toFinset := by
  ext a
  simp [List.mem_toFinset, mem_keepFirsts]

theorem keepFirsts_length_eq_card {α : Type} [DecidableEq α] (l : List α) :
    (keepFirsts l).length = l.toFinset.card := by
  rw [← keepFirsts_toFinset, List.toFinset_card_of_nodup (keepFirsts_nodup l)]

theorem unigramList_ne_nil (lid : String) : unigramList lid ≠ [] := by
  have h : ∀ cs : List Char, splitCharsOn ' ' cs ≠ [] := by
    intro cs
    induction cs with
    | nil => simp [splitCharsOn]
    | cons c cs ih =>
      simp only [splitCharsOn]
      rcases hs : splitCharsOn ' ' cs with _ | ⟨w, ws⟩
      · simp
      · by_cases hc : c = ' ' <;> simp [hc]
  intro hnil
  rcases hs : splitCharsOn ' ' lid.data with _ | ⟨w, ws⟩
  · exact h _ hs
  · simp [unigramList, pySplitChar, keepFirsts, hs] at hnil

theorem unigramList_length_pos (lid : String) : 0 < (unigramList lid).length :=
  List.length_pos.mpr (unigramList_ne_nil lid)

/-- Evaluation helper for `unigrams_in_common` at concrete arguments. -/
theorem uic_eval (lid_1 lid_2 : String) (u1 u2 c : List String)
    (h1 : unigramList lid_1 = u1) (h2 : unigramList lid_2 = u2)
    (hc : u1.filter (fun u => decide (u ∈ u2)) = c) :
    unigrams_in_common lid_1 lid_2 =
      ((c.length : ℚ) / (((u1.length : ℚ) + (u2.length : ℚ)) / 2),
        String.intercalate "," c) := by
  simp [unigrams_in_common, uic_denominator, h1, h2, hc]

theorem unigramList_length_eq_card (lid : String) :
    (unigramList lid).length = (pySplitChar ' ' lid).toFinset.card :=
  keepFirsts_length_eq_card _

theorem common_length_eq_card_inter (lid_1 lid_2 : String) :
    ((unigramList lid_1).filter (fun u => decide (u ∈ unigramList lid_2))).length
      = ((pySplitChar ' ' lid_1).toFinset ∩ (pySplitChar ' ' lid_2).toFinset).card := by
  have hnd : ((unigramList lid_1).filter (fun u => decide (u ∈ unigramList lid_2))).Nodup :=
    (keepFirsts_nodup _).filter _
  rw [← List.toFinset_card_of_nodup hnd, List.toFinset_filter]
  congr 1
  rw [← keepFirsts_toFinset (pySplitChar ' ' lid_1), ← Finset.filter_mem_eq_inter]
  apply Finset.filter_congr
  intro x hx
  simp [unigramList, mem_keepFirsts, List.mem_toFinset]

/-- `get_unspsc_label_title` keeps, over the fold, the title of the first
matching row of the most recent table that had any match. -/
theorem get_title_foldl (code : Nat) (title_dfs : List (List (Nat × String))) :
    ∀ init : String,
      title_dfs.foldl
        (fun title source_df =>
          match source_df.filter (fun r => decide (r.1 = code)) with
          | [] => title
          | r :: _ => r.2) init
      = (((title_dfs.filterMap
            (fun source_df =>
              (source_df.filter (fun r => decide (r.1 = code))).head?)).getLast?).map
          Prod.snd).getD init := by
  induction title_dfs with
  | nil => intro init; simp
  | cons df dfs ih =>
    intro init
    rcases hf : df.filter (fun r => decide (r.1 = code)) with _ | ⟨r, rs⟩
    · simp only [List.foldl_cons, List.filterMap_cons, hf]
      exact ih init
    · simp only [List.foldl_cons, List.filterMap_cons, hf, List.head?_cons]
      rw [ih r.2]
      rcases hL : dfs.filterMap
          (fun source_df => (source_df.filter (fun r => decide (r.1 = code))).head?) with _ | ⟨x, xs⟩
      · rw [hL]
        simp
      · rw [hL, List.getLast?_cons_cons]
        rcases hg : (x :: xs).getLast? with _ | y
        · simp at hg
        · simp [hg]

/-- The accumulator loop of `reduce_by_unigrams` appends exactly the
first occurrences that are not already in the accumulator. -/
theorem pyUniqLoop_eq (l : List String) : ∀ acc : List String,
    pyUniqLoop acc l = acc ++ (keepFirsts l).filter (fun w => decide (w ∉ acc)) := by
  induction l with
  | nil => intro acc; simp [pyUniqLoop, keepFirsts]
  | cons word words ih =>
    intro acc
    by_cases hw : word ∈ acc
    · rw [pyUniqLoop, if_pos hw, ih acc]
      congr 1
      rw [keepFirsts, List.filter_cons]
      simp only [hw, not_true_eq_false, decide_False]
      rw [List.filter_filter]
      apply List.filter_congr
      intro v hv
      by_cases hva : v ∈ acc
      · simp [hva]
      · have hvw : v ≠ word := fun h => hva (h ▸ hw)
        simp [hva, hvw]
    · rw [pyUniqLoop, if_neg hw, ih (acc ++ [word])]
      rw [keepFirsts, List.filter_cons]
      simp only [hw, not_false_eq_true, decide_True]
      rw [List.append_assoc, List.singleton_append, List.filter_filter]
      congr 2
      apply List.filter_congr
      intro v hv
      by_cases hvw : v = word
      · simp [hvw]
      · by_cases hva : v ∈ acc <;> simp [hva, hvw]

/-- `keepFirsts` lists elements in strictly increasing order of their
first occurrence in the input. -/
theorem keepFirsts_pairwise_indexOf {α : Type} [DecidableEq α] (l : List α) :
    (keepFirsts l).Pairwise (fun a b => l.indexOf a < l.indexOf b) := by
  induction l with
  | nil => simp [keepFirsts]
  | cons w ws ih =>
    rw [keepFirsts]
    refine List.Pairwise.cons ?_ ?_
    · intro b hb
      have hbw : b ≠ w := by
        have := (List.mem_filter.mp hb).2
        simpa using this
      rw [List.indexOf_cons_self, List.indexOf_cons_ne ws (fun h => hbw h.symm)]
      exact Nat.succ_pos _
    · have hpw : ((keepFirsts ws).filter (fun v => decide (v ≠ w))).Pairwise
          (fun a b => ws.indexOf a < ws.indexOf b) :=
        List.Pairwise.sublist (List.filter_sublist _) ih
      refine hpw.imp_of_mem ?_
      intro a b ha hb hab
      have haw : a ≠ w := by simpa using (List.mem_filter.mp ha).2
      have hbw : b ≠ w := by simpa using (List.mem_filter.mp hb).2
      rw [List.indexOf_cons_ne ws (fun h => haw h.symm),
        List.indexOf_cons_ne ws (fun h => hbw h.symm)]
      exact Nat.succ_lt_succ hab

/-- The source's append-if-unseen loop is first-occurrence deduplication
of the whitespace-split token list. -/
theorem reduceUnigramsList_eq (s : String) :
    reduceUnigramsList s = keepFirsts (pySplitWhite (remove_special_chars s)) := by
  rw [reduceUnigramsList, pyUniqLoop_eq]
  simp

/-- The three sequential single-character `replace` calls of
`remove_special_chars` amount to one character map sending each default
special character (comma, period, hyphen) to a single space. -/
theorem remove_special_chars_eq_map (s : String) :
    remove_special_chars s
      = ⟨s.data.map (fun c => if c = ',' ∨ c = '.' ∨ c = '-' then ' ' else c)⟩ := by
  show [',', '.', '-'].foldl replaceWithSpace s = _
  simp only [List.foldl_cons, List.foldl_nil, replaceWithSpace, List.map_map]
  congr 1
  apply List.map_congr_left
  intro c _
  by_cases h1 : c = ',' <;> by_cases h2 : c = '.' <;> by_cases h3 : c = '-' <;>
    simp_all

/-- The `label_1 != label_2` filter of `generate_interest_pairs` is
subsumed by the subsequent `label_1 < label_2` filter. -/
theorem gip_eq_filter_lt (labels : List Nat) :
    generate_interest_pairs labels
      = (crossSelf labels).filter (fun p => decide (p.1 < p.2)) := by
  rw [generate_interest_pairs, List.filter_filter]
  apply List.filter_congr
  intro p hp
  by_cases h : p.1 < p.2
  · simp [h, Nat.ne_of_lt h]
  · simp [h]

theorem cnt_lt_add_cnt_gt (x : Nat) (xs : List Nat) (hx : x ∉ xs) :
    (xs.filter (fun b => decide (x < b))).length
      + (xs.filter (fun b => decide (b < x))).length = xs.length := by
  induction xs with
  | nil => simp
  | cons a as ih =>
    have hax : x ≠ a ∧ x ∉ as := by simpa [List.mem_cons, not_or] using hx
    have ih' := ih hax.2
    rcases Nat.lt_trichotomy x a with h | h | h
    · have h2 : ¬ a < x := Nat.lt_asymm h
      simp [List.filter_cons, h, h2]
      omega
    · exact absurd h hax.1
    · have h2 : ¬ x < a := Nat.lt_asymm h
      simp [List.filter_cons, h, h2]
      omega

theorem inner_len (a : Nat) (l : List Nat) :
    ((l.map (fun b => (a, b))).filter (fun p => decide (p.1 < p.2))).length
      = (l.filter (fun b => decide (a < b))).length := by
  rw [List.filter_map, List.length_map]
  congr 1

theorem sum_map_add_nat {α : Type} (f g : α → Nat) (l : List α) :
    (l.map (fun a => f a + g a)).sum = (l.map f).sum + (l.map g).sum := by
  induction l with
  | nil => simp
  | cons a as ih => simp [ih]; omega

theorem sum_indicator_lt (x : Nat) (l : List Nat) :
    (l.map (fun a => if a < x then 1 else 0)).sum
      = (l.filter (fun a => decide (a < x))).length := by
  induction l with
  | nil => simp
  | cons a as ih =>
    by_cases h : a < x <;> simp [List.filter_cons, h, ih] <;> omega

theorem bind_filter_len (zs : List Nat) : ∀ ys : List Nat,
    ((ys.flatMap (fun a => zs.map (fun b => (a, b)))).filter
        (fun p => decide (p.1 < p.2))).length
      = (ys.map (fun a => (zs.filter (fun b => decide (a < b))).length)).sum := by
  intro ys
  induction ys with
  | nil => simp
  | cons a as ih =>
    rw [List.flatMap_cons, List.filter_append, List.length_append, inner_len, ih,
      List.map_cons, List.sum_cons]

/-- The number of surviving pairs over a duplicate-free label list is the
number of two-element subsets. -/
theorem gip_length_choose (labels : List Nat) (h : labels.Nodup) :
    (generate_interest_pairs labels).length = labels.length.choose 2 := by
  rw [gip_eq_filter_lt]
  induction labels with
  | nil => simp [crossSelf]
  | cons x xs ih =>
    obtain ⟨hx, hnd⟩ := List.nodup_cons.mp h
    rw [crossSelf, List.flatMap_cons, List.filter_append, List.length_append]
    have hA : (((x :: xs).map (fun b => (x, b))).filter
        (fun p => decide (p.1 < p.2))).length
        = (xs.filter (fun b => decide (x < b))).length := by
      rw [inner_len, List.filter_cons]
      simp
    have hB : ((xs.flatMap (fun a => (x :: xs).map (fun b => (a, b)))).filter
        (fun p => decide (p.1 < p.2))).length
        = (xs.filter (fun b => decide (b < x))).length
          + ((crossSelf xs).filter (fun p => decide (p.1 < p.2))).length := by
      rw [bind_filter_len]
      have hcong : xs.map (fun a => ((x :: xs).filter (fun b => decide (a < b))).length)
          = xs.map (fun a => (if a < x then 1 else 0)
            + (xs.filter (fun b => decide (a < b))).length) := by
        apply List.map_congr_left
        intro a _
        rw [List.filter_cons]
        by_cases hax : a < x <;> simp [hax] <;> omega
      rw [hcong, sum_map_add_nat, sum_indicator_lt, crossSelf, bind_filter_len]
    rw [hA, hB, ih hnd]
    have hcnt := cnt_lt_add_cnt_gt x xs hx
    have hch : (xs.length + 1).choose 2 = xs.length + xs.length.choose 2 := by
      rw [show xs.length + 1 = Nat.succ xs.length from rfl,
        show (2 : Nat) = Nat.succ 1 from rfl, Nat.choose_succ_succ,
        Nat.choose_one_right]
    simp only [List.length_cons, hch]
    omega

/-- The cache-hit branch of `compute_class_overlaps`: an existing,
nonempty cache file short-circuits the call. -/
theorem compute_hit (fs : FS) (dataset : List (Nat × String)) (label_1 label_2 : Nat)
    (rows : List CacheRow)
    (hlook : List.lookup (csvName label_1 label_2) fs = some rows)
    (hne : rows ≠ []) :
    compute_class_overlaps fs dataset label_1 label_2
      = .ok (listMean (rows.map (fun row => row.unigram_overlap_score)), fs, 0) := by
  rw [compute_class_overlaps]
  simp only [hlook]
  rw [if_neg (by simpa using hne)]

/-- The cache-miss branch of `compute_class_overlaps`: the full cross
product is scored, the deduplicated sorted rows are persisted, and the
mean over the full pre-deduplication table is returned. -/
theorem compute_miss (fs : FS) (dataset : List (Nat × String)) (label_1 label_2 : Nat)
    (hlook : List.lookup (csvName label_1 label_2) fs = none)
    (hne : crossRows (selectLids dataset label_1) (selectLids dataset label_2) ≠ []) :
    compute_class_overlaps fs dataset label_1 label_2
      = .ok (fullCrossMean (selectLids dataset label_1) (selectLids dataset label_2),
          fs ++ [(csvName label_1 label_2,
            cacheFileRows (selectLids dataset label_1) (selectLids dataset label_2))],
          (crossRows (selectLids dataset label_1) (selectLids dataset label_2)).length) := by
  rw [compute_class_overlaps]
  simp only [hlook]
  rw [if_neg (by simpa using hne)]
  rfl

theorem uic_self_a : unigrams_in_common "a" "a" = (1, "a") := by
  rw [uic_eval _ _ ["a"] ["a"] ["a"] (by decide) (by decide) (by decide)]
  norm_num
  decide

theorem uic_b_a : unigrams_in_common "b" "a" = (0, "") := by
  rw [uic_eval _ _ ["b"] ["a"] [] (by decide) (by decide) (by decide)]
  norm_num
  decide

theorem selectLids_ds0_1 :
    selectLids [(1, "a"), (1, "a"), (1, "b"), (2, "a")] 1 = ["a", "a", "b"] := by decide

theorem selectLids_ds0_2 :
    selectLids [(1, "a"), (1, "a"), (1, "b"), (2, "a")] 2 = ["a"] := by decide

theorem crossRows_ds0 :
    crossRows ["a", "a", "b"] ["a"] = [("a", "a"), ("a", "a"), ("b", "a")] := by decide

theorem scoredTable_ds0 : scoredTable ["a", "a", "b"] ["a"]
    = [CacheRow.mk "a" "a" 100 "a" 2, CacheRow.mk "a" "a" 100 "a" 2,
        CacheRow.mk "b" "a" 0 "" 1] := by
  rw [scoredTable, crossRows_ds0]
  simp [uic_self_a, uic_b_a, List.count_cons, List.count_nil]

theorem cacheFileRows_ds0 : cacheFileRows ["a", "a", "b"] ["a"]
    = [CacheRow.mk "a" "a" 100 "a" 2, CacheRow.mk "b" "a" 0 "" 1] := by
  rw [cacheFileRows, scoredTable_ds0]
  rw [show keepFirsts [CacheRow.mk "a" "a" 100 "a" 2, CacheRow.mk "a" "a" 100 "a" 2,
      CacheRow.mk "b" "a" 0 "" 1]
    = [CacheRow.mk "a" "a" 100 "a" 2, CacheRow.mk "b" "a" 0 "" 1] from by
      simp [keepFirsts, CacheRow.mk.injEq]]
  rw [insertionSort, insertionSort, insertionSort, insertSorted, insertSorted]
  norm_num [insertSorted]

theorem fullCrossMean_ds0 : fullCrossMean ["a", "a", "b"] ["a"] = 200 / 3 := by
  rw [fullCrossMean, scoredTable_ds0]
  norm_num [listMean]

/-! ### The claims -/

/-- Claim C3: for every pair of normalized token strings, the Overlap
Scorer returns `|intersection| / ((|set_1| + |set_2|) / 2)` together with
the intersection elements joined by commas; `score("a b", "b c") = (1/2, "b")`
and `score("a b", "a b")` has ratio `1` with shared tokens exactly
`{a, b}` in some order. -/
theorem claim_C3 :
    (∀ lid_1 lid_2 : String,
      (unigrams_in_common lid_1 lid_2).1 =
        (((pySplitChar ' ' lid_1).toFinset ∩ (pySplitChar ' ' lid_2).toFinset).card : ℚ) /
          ((((pySplitChar ' ' lid_1).toFinset.card : ℚ)
            + ((pySplitChar ' ' lid_2).toFinset.card : ℚ)) / 2))
    ∧ unigrams_in_common "a b" "b c" = (1 / 2, "b")
    ∧ (unigrams_in_common "a b" "a b").1 = 1
    ∧ ((unigrams_in_common "a b" "a b").2 = "a,b" ∨ (unigrams_in_common "a b" "a b").2 = "b,a") := by
  refine ⟨?_, ?_, ?_, ?_⟩
  · intro lid_1 lid_2
    show ((((unigramList lid_1).filter
        (fun u => decide (u ∈ unigramList lid_2))).length : ℚ) / uic_denominator lid_1 lid_2) = _
    rw [common_length_eq_card_inter, uic_denominator,
      unigramList_length_eq_card, unigramList_length_eq_card]
  · rw [uic_eval _ _ ["a", "b"] ["b", "c"] ["b"] (by decide) (by decide) (by decide)]
    norm_num
    decide
  · rw [uic_eval _ _ ["a", "b"] ["a", "b"] ["a", "b"] (by decide) (by decide) (by decide)]
    norm_num
  · left
    rw [uic_eval _ _ ["a", "b"] ["a", "b"] ["a", "b"] (by decide) (by decide) (by decide)]
    decide

/-- Claim C4 is refuted at the concrete input `("", "")`: Python's
`"".split(' ')` is `['']`, so each unigram set is the singleton `{''}`,
the denominator of the ratio is `1`, not `0`, and the call returns the
defined value `(1.0, "")`. -/
theorem claim_C4_counterexample :
    uic_denominator "" "" = 1 ∧ unigrams_in_common "" "" = (1, "") := by
  constructor
  · rw [uic_denominator, show unigramList "" = [""] from by decide]
    norm_num
  · rw [uic_eval _ _ [""] [""] [""] (by decide) (by decide) (by decide)]
    norm_num
    decide

/-- Claim C4 (amended): when both inputs are empty strings the split
yields the singleton list containing the empty token on each side, so the
denominator of the ratio is `1` and the call returns the defined value
`(1.0, "")`; in fact the denominator is nonzero for every pair of inputs,
so no call of the Overlap Scorer divides by zero. -/
theorem claim_C4 :
    (∀ lid_1 lid_2 : String, uic_denominator lid_1 lid_2 ≠ 0)
    ∧ unigramList "" = [""]
    ∧ unigrams_in_common "" "" = (1, "") := by
  refine ⟨?_, by decide, ?_⟩
  · intro lid_1 lid_2
    have h1 := unigramList_length_pos lid_1
    have h2 := unigramList_length_pos lid_2
    rw [uic_denominator]
    positivity
  · rw [uic_eval _ _ [""] [""] [""] (by decide) (by decide) (by decide)]
    norm_num
    decide

/-- Claim C5: the derived level is computed from the overlapping start
positions of `"00"` in the code's decimal string: zero positions give
level `4`; exactly one position `p` gives `4 − 1 + (1 if p odd else 0)`;
`k > 1` positions give `4 − k + (k / 2)` with integer division. -/
theorem claim_C5 : ∀ code : Nat,
    (zzPositions (Nat.repr code) = [] → derive_level code = 4)
    ∧ (∀ p, zzPositions (Nat.repr code) = [p] →
        derive_level code = 4 - 1 + (if p % 2 = 1 then 1 else 0))
    ∧ (1 < (zzPositions (Nat.repr code)).length →
        derive_level code = 4 - ((zzPositions (Nat.repr code)).length : Int)
          + (((zzPositions (Nat.repr code)).length / 2 : Nat) : Int)) := by
  intro code
  refine ⟨?_, ?_, ?_⟩
  · intro h
    simp [derive_level, h]
  · intro p h
    simp [derive_level, h]
  · intro hlen
    rcases hz : zzPositions (Nat.repr code) with _ | ⟨p, ps⟩
    · rw [hz] at hlen; simp at hlen
    · rcases ps with _ | ⟨q, qs⟩
      · rw [hz] at hlen; simp at hlen
      · simp [derive_level, hz]

/-- Claim C5 instantiated at the spec's example code `94131500`: the only
`"00"` start position is `6` (even), so the level is `4 − 1 + 0 = 3`. -/
theorem claim_C5_witness :
    zzPositions (Nat.repr 94131500) = [6] ∧ derive_level 94131500 = 3 := by
  refine ⟨by decide, ?_⟩
  have h := (claim_C5 94131500).2.1 6 (by decide)
  norm_num at h
  exact h

/-- Claim C8: the title of a label code is resolved by scanning all
reference tables for an exact code match; when several tables match, the
match found in the last matching table (its first matching row) wins, and
a code matched by no table resolves to `"Unknown"`. -/
theorem claim_C8 : ∀ (title_dfs : List (List (Nat × String))) (code : Nat),
    get_unspsc_label_title title_dfs code
      = ((lastTableMatch title_dfs code).map Prod.snd).getD "Unknown"
    ∧ ((∀ df ∈ title_dfs, ∀ r ∈ df, r.1 ≠ code) →
        get_unspsc_label_title title_dfs code = "Unknown") := by
  intro title_dfs code
  have hfold := get_title_foldl code title_dfs "Unknown"
  refine ⟨hfold, ?_⟩
  intro hnone
  have hnil : (title_dfs.filterMap
      (fun source_df => (source_df.filter (fun r => decide (r.1 = code))).head?)) = [] := by
    rw [List.filterMap_eq_nil_iff]
    intro df hdf
    have : df.filter (fun r => decide (r.1 = code)) = [] := by
      rw [List.filter_eq_nil_iff]
      intro r hr
      simpa using hnone df hdf r hr
    simp [this]
  have h1 : get_unspsc_label_title title_dfs code
      = (((title_dfs.filterMap
          (fun source_df =>
            (source_df.filter (fun r => decide (r.1 = code))).head?)).getLast?).map
        Prod.snd).getD "Unknown" := hfold
  rw [h1, hnil]
  rfl

/-- Claim C8 at a concrete input: two tables both match code `1`, the
second (last) table's title wins; code `3` matches no table and resolves
to `"Unknown"`. -/
theorem claim_C8_witness :
    get_unspsc_label_title [[(1, "A")], [(1, "B"), (2, "C")]] 1 = "B"
    ∧ get_unspsc_label_title [[(1, "A")], [(1, "B"), (2, "C")]] 3 = "Unknown" := by
  constructor
  · rw [(claim_C8 [[(1, "A")], [(1, "B"), (2, "C")]] 1).1]
    decide
  · exact (claim_C8 [[(1, "A")], [(1, "B"), (2, "C")]] 3).2 (by decide)

/-- Claim C10: the Label Frequency Index drops a label exactly when its
resolved title is the string `"Unknown"`, whether that string came from
the unresolved fallback or verbatim from a reference table; in particular
a code whose genuine reference title is `"Unknown"` is excluded. -/
theorem claim_C10 :
    (∀ (title_dfs : List (List (Nat × String))) (dataset_labels : List Nat) (c : Nat),
      get_unspsc_label_title title_dfs c = "Unknown" →
        c ∉ (generate_label_frequency title_dfs dataset_labels).map LabelRow.label)
    ∧ generate_label_frequency [[(5, "Unknown")]] [5] = [] := by
  constructor
  · intro title_dfs dataset_labels c hunknown hmem
    obtain ⟨row, hrow, hlabel⟩ := List.mem_map.mp hmem
    obtain ⟨hrow_mem, hrow_title⟩ := List.mem_filter.mp hrow
    obtain ⟨cf, -, hcf⟩ := List.mem_map.mp hrow_mem
    have htitle : row.label_title = get_unspsc_label_title title_dfs c := by
      rw [← hcf] at hlabel ⊢
      simp only at hlabel ⊢
      rw [hlabel]
    rw [htitle, hunknown] at hrow_title
    simp at hrow_title
  · decide

/-- Claim C10 applied at a concrete input: the title of code `7` resolves
to the fallback `"Unknown"` (no reference table), so `7` is excluded from
the generated index. -/
theorem claim_C10_witness :
    7 ∉ (generate_label_frequency [] [7]).map LabelRow.label :=
  claim_C10.1 [] [7] 7 (by decide)

/-- Claim C7 is refuted at the concrete non-string, non-float input `7`
(a Python `int`): `isinstance(7, float)` is false, so the call reaches
`lid_string.replace(...)` and raises `AttributeError` instead of
returning the empty sequence. -/
theorem claim_C7_counterexample :
    reduce_by_unigrams (.intVal 7) = none ∧ reduce_by_unigrams (.intVal 7) ≠ some "" := by
  exact ⟨rfl, by decide⟩

/-- Claim C7 (amended): each default special character (comma, period,
hyphen) is replaced by a single space before whitespace splitting; the
output token sequence has no repeated tokens and lists tokens in strictly
increasing order of first occurrence; a float input — the form a null
takes in this pipeline — yields the empty sequence without error (while a
non-string, non-float input raises); and `normalize("a, a.a-a") = "a"`. -/
theorem claim_C7 :
    (∀ s : String, remove_special_chars s
        = ⟨s.data.map (fun c => if c = ',' ∨ c = '.' ∨ c = '-' then ' ' else c)⟩)
    ∧ (∀ s : String,
        (reduceUnigramsList s).Nodup
        ∧ (∀ t, t ∈ reduceUnigramsList s ↔ t ∈ pySplitWhite (remove_special_chars s))
        ∧ (reduceUnigramsList s).Pairwise
            (fun a b => (pySplitWhite (remove_special_chars s)).indexOf a
              < (pySplitWhite (remove_special_chars s)).indexOf b))
    ∧ (∀ s : String, reduce_by_unigrams (.strVal s)
        = some (String.intercalate " " (reduceUnigramsList s)))
    ∧ reduce_by_unigrams .floatVal = some ""
    ∧ reduce_by_unigrams (.strVal "a, a.a-a") = some "a" := by
  refine ⟨remove_special_chars_eq_map, ?_, fun s => rfl, rfl, by decide⟩
  intro s
  rw [reduceUnigramsList_eq]
  exact ⟨keepFirsts_nodup _, fun t => mem_keepFirsts t _, keepFirsts_pairwise_indexOf _⟩

/-- Claim C6: over a list of N distinct label codes the Pair Enumerator
produces exactly N(N−1)/2 pairs; no pair has two identical codes, no two
pairs are code-reversals of each other, and every pair has its first code
strictly below its second. -/
theorem claim_C6 : ∀ (labels : List Nat) (N : Nat), labels.Nodup → labels.length = N →
    (generate_interest_pairs labels).length = N * (N - 1) / 2
    ∧ (∀ p ∈ generate_interest_pairs labels, p.1 < p.2)
    ∧ (∀ p ∈ generate_interest_pairs labels, p.1 ≠ p.2)
    ∧ (∀ p ∈ generate_interest_pairs labels, ∀ q ∈ generate_interest_pairs labels,
        ¬(p.1 = q.2 ∧ p.2 = q.1)) := by
  intro labels N hnd hlen
  have hlt : ∀ p ∈ generate_interest_pairs labels, p.1 < p.2 := by
    intro p hp
    rw [gip_eq_filter_lt] at hp
    simpa using (List.mem_filter.mp hp).2
  refine ⟨?_, hlt, ?_, ?_⟩
  · rw [gip_length_choose labels hnd, hlen, Nat.choose_two_right]
  · intro p hp
    exact Nat.ne_of_lt (hlt p hp)
  · intro p hp q hq ⟨h1, h2⟩
    have hpq := hlt p hp
    have hq2 := hlt q hq
    omega

/-- Claim C6 applied to the concrete label list `[11, 22, 33]`:
three labels yield exactly `3·2/2 = 3` pairs. -/
theorem claim_C6_witness :
    (generate_interest_pairs [11, 22, 33]).length = 3 * (3 - 1) / 2 :=
  (claim_C6 [11, 22, 33] 3 (by decide) (by decide)).1

/-- Claim C1: the cache-miss path returns the mean unigram overlap score
over the full pre-deduplication cross-product table (duplicates at full
multiplicity) while the cache-hit path returns the mean over the
deduplicated rows stored in the pair's cache file, and consequently there
is an input with duplicate combinations on which the first (miss) run and
the second (hit) run over the same pair return different values. -/
theorem claim_C1 :
    (∀ (fs : FS) (dataset : List (Nat × String)) (label_1 label_2 : Nat),
      List.lookup (csvName label_1 label_2) fs = none →
      crossRows (selectLids dataset label_1) (selectLids dataset label_2) ≠ [] →
      compute_class_overlaps fs dataset label_1 label_2
        = .ok (fullCrossMean (selectLids dataset label_1) (selectLids dataset label_2),
            fs ++ [(csvName label_1 label_2,
              cacheFileRows (selectLids dataset label_1) (selectLids dataset label_2))],
            (crossRows (selectLids dataset label_1) (selectLids dataset label_2)).length))
    ∧ (∀ (fs : FS) (dataset : List (Nat × String)) (label_1 label_2 : Nat)
        (rows : List CacheRow),
        List.lookup (csvName label_1 label_2) fs = some rows → rows ≠ [] →
        compute_class_overlaps fs dataset label_1 label_2
          = .ok (listMean (rows.map (fun row => row.unigram_overlap_score)), fs, 0))
    ∧ (∃ (v1 v2 : ℚ) (fs1 fs2 : FS) (n1 n2 : Nat),
        compute_class_overlaps [] [(1, "a"), (1, "a"), (1, "b"), (2, "a")] 1 2
          = .ok (v1, fs1, n1)
        ∧ compute_class_overlaps fs1 [(1, "a"), (1, "a"), (1, "b"), (2, "a")] 1 2
          = .ok (v2, fs2, n2)
        ∧ v1 ≠ v2) := by
  refine ⟨compute_miss, compute_hit, ?_⟩
  refine ⟨200 / 3, 50, [(csvName 1 2,
    [CacheRow.mk "a" "a" 100 "a" 2, CacheRow.mk "b" "a" 0 "" 1])],
    [(csvName 1 2, [CacheRow.mk "a" "a" 100 "a" 2, CacheRow.mk "b" "a" 0 "" 1])],
    3, 0, ?_, ?_, by norm_num⟩
  · rw [compute_miss _ _ _ _ (by rfl)
      (by rw [selectLids_ds0_1, selectLids_ds0_2, crossRows_ds0]; decide)]
    rw [selectLids_ds0_1, selectLids_ds0_2, crossRows_ds0, fullCrossMean_ds0,
      cacheFileRows_ds0]
    rfl
  · rw [compute_hit _ _ _ _ [CacheRow.mk "a" "a" 100 "a" 2, CacheRow.mk "b" "a" 0 "" 1]
      (by simp [List.lookup]) (by simp)]
    norm_num [listMean]

/-- Claim C1 applied at concrete inputs: a miss over `[(1,"a"),(2,"b")]`
and a hit over a one-file cache, with the hypotheses of both branches
discharged by evaluation. -/
theorem claim_C1_witness :
    (compute_class_overlaps [] [(1, "a"), (2, "b")] 1 2
      = .ok (fullCrossMean (selectLids [(1, "a"), (2, "b")] 1)
            (selectLids [(1, "a"), (2, "b")] 2),
          [] ++ [(csvName 1 2,
            cacheFileRows (selectLids [(1, "a"), (2, "b")] 1)
              (selectLids [(1, "a"), (2, "b")] 2))],
          (crossRows (selectLids [(1, "a"), (2, "b")] 1)
            (selectLids [(1, "a"), (2, "b")] 2)).length))
    ∧ (compute_class_overlaps [(csvName 1 2, [CacheRow.mk "a" "b" 0 "" 1])] [] 1 2
      = .ok (listMean ([CacheRow.mk "a" "b" 0 "" 1].map
            (fun row => row.unigram_overlap_score)),
          [(csvName 1 2, [CacheRow.mk "a" "b" 0 "" 1])], 0)) :=
  ⟨claim_C1.1 [] [(1, "a"), (2, "b")] 1 2 (by rfl) (by decide),
    claim_C1.2.1 [(csvName 1 2, [CacheRow.mk "a" "b" 0 "" 1])] [] 1 2
      [CacheRow.mk "a" "b" 0 "" 1] (by simp [List.lookup]) (by simp)⟩

/-- Claim C2: for a pair whose cache file exists, the Aggregator returns
the mean of that file's score column with no recomputation — no scorer
invocation, no file written, the cache state unchanged, and a result that
does not depend on the dataset at all, which is what makes an interrupted
run resume from its per-pair cache files. -/
theorem claim_C2 :
    ∀ (fs : FS) (dataset : List (Nat × String)) (label_1 label_2 : Nat)
      (rows : List CacheRow),
      List.lookup (csvName label_1 label_2) fs = some rows → rows ≠ [] →
      compute_class_overlaps fs dataset label_1 label_2
        = .ok (listMean (rows.map (fun row => row.unigram_overlap_score)), fs, 0) :=
  compute_hit

/-- Claim C2 applied at a concrete input: a cache file for the pair
`(3, 4)` is served untouched, over an empty dataset. -/
theorem claim_C2_witness :
    compute_class_overlaps [(csvName 3 4, [CacheRow.mk "a" "a" 100 "a" 1])] [] 3 4
      = .ok (listMean ([CacheRow.mk "a" "a" 100 "a" 1].map
            (fun row => row.unigram_overlap_score)),
          [(csvName 3 4, [CacheRow.mk "a" "a" 100 "a" 1])], 0) :=
  claim_C2 [(csvName 3 4, [CacheRow.mk "a" "a" 100 "a" 1])] [] 3 4
    [CacheRow.mk "a" "a" 100 "a" 1] (by simp [List.lookup]) (by simp)

/-- Claim C9 concerns the missing per-pair failure isolation: the
orchestrator loop has no exception handling, so one failing pair aborts
the whole batch.  Concretely, with an empty dataset the pair `(1, 2)`
raises (empty cross product) and the run dies with that exception even
though the pair `(3, 4)` after it has a valid cache file and would have
succeeded on its own. -/
theorem claim_C9 :
    overlap_analysis [(csvName 3 4, [CacheRow.mk "a" "a" 100 "a" 1])] [] [(1, 2), (3, 4)]
      = .error "ValueError"
    ∧ compute_class_overlaps [(csvName 3 4, [CacheRow.mk "a" "a" 100 "a" 1])] [] 3 4
      = .ok (100, [(csvName 3 4, [CacheRow.mk "a" "a" 100 "a" 1])], 0) := by
  constructor
  · rw [overlap_analysis]
    rw [show compute_class_overlaps [(csvName 3 4, [CacheRow.mk "a" "a" 100 "a" 1])] [] 1 2
        = .error "ValueError" from by
      rw [compute_class_overlaps]
      rw [show List.lookup (csvName 1 2)
          [(csvName 3 4, [CacheRow.mk "a" "a" 100 "a" 1])] = none from by decide]
      rfl]
  · rw [compute_hit _ _ _ _ [CacheRow.mk "a" "a" 100 "a" 1] (by simp [List.lookup]) (by simp)]
    norm_num [listMean]

end OverlapAnalysis
